import Mathlib

/-!
cod-1-udp-server: the datagram dispatcher, the session registry and the snapshot sender.

A shallow embedding of `main.go` and `snapshots.go`.

* Go `string` and `[]byte` values are byte sequences (`Bytes`); a payload may hold
  bytes that are not valid UTF-8, such as the four `0xFF` bytes of the marker.
* `int` is the 64-bit signed integer of the amd64 and arm64 ports; conversions to it
  wrap modulo `2^64` (`toInt64`).
* The global `clients` map is an association list, one entry per key.
* Each `conn.WriteToUDP` call can succeed or fail; the outcomes are an input of the
  handlers, as are the result of `rand.Read` and whether a breakpoint trap is resumed.
-/

namespace Cod1

/-! ## Bytes and string literals -/

/-- Go `string` and `[]byte` values. -/
abbrev Bytes := List UInt8

/-- The bytes of an ASCII literal. -/
def ascii (s : String) : Bytes := s.toList.map (fun c => UInt8.ofNat c.toNat)

/-- The literal `"\xff\xff\xff\xff"` that starts every out-of-band message. -/
def oob : Bytes := [0xFF, 0xFF, 0xFF, 0xFF]

/-- `strings.HasPrefix(s, p)`: `len(s) >= len(p) && s[0:len(p)] == p`. -/
def HasPrefix (s p : Bytes) : Bool :=
  decide (p.length ≤ s.length) && (s.take p.length == p)

deriving instance DecidableEq for Except

/-! ## Integer decoding -/

/-- Conversion of a non-negative value to `int` (64 bits, two's complement). -/
def toInt64 (n : Nat) : Int :=
  if n % 2 ^ 64 < 2 ^ 63 then ((n % 2 ^ 64 : Nat) : Int) else ((n % 2 ^ 64 : Nat) : Int) - 2 ^ 64

/-- `binary.BigEndian.Uint32(b)`:
`uint32(b[3]) | uint32(b[2])<<8 | uint32(b[1])<<16 | uint32(b[0])<<24`
for a slice of at least four bytes (the library panics on a shorter one: `none`). -/
def bigEndianUint32 (b : Bytes) : Option Nat :=
  match b with
  | b0 :: b1 :: b2 :: b3 :: _ =>
    some ((b3.toNat ||| (b2.toNat <<< 8) % 2 ^ 32 ||| (b1.toNat <<< 16) % 2 ^ 32
      ||| (b0.toNat <<< 24) % 2 ^ 32) % 2 ^ 32)
  | _ => none

/-- `parseSequenceNumber` (main.go 221-228): an error for a payload under four bytes,
else the big-endian value of `data[0:4]` converted to `int`. -/
def parseSequenceNumber (data : Bytes) : Except String Int :=
  if data.length < 4 then
    .error "paquet trop court"
  else
    match bigEndianUint32 (data.take 4) with
    | some v => .ok (toInt64 v)
    | none => .error "index out of range"

/-! ## Classification of a datagram -/

/-- The five branches of the `if` chain of `handleClient`, named after the handler
each one calls. -/
inductive Handler
  | GetChallenge
  | Connect
  | Ack
  | SixteenByteControl
  | StatusUpdate
  deriving DecidableEq, Repr

/-- The `if` chain of `handleClient` (main.go 255-265) on `receivedData = string(buffer[:n])`,
where `n = len(receivedData)`. -/
def selectHandler (receivedData : Bytes) : Handler :=
  if HasPrefix receivedData (oob ++ ascii "getchallenge") then
    .GetChallenge
  else if HasPrefix receivedData (oob ++ ascii "connect") && decide (receivedData.length ≥ 136) then
    .Connect
  else if HasPrefix receivedData (oob ++ ascii "ack") then
    .Ack
  else if receivedData.length == 16 then
    .SixteenByteControl
  else
    .StatusUpdate

/-! ## Decimal rendering (`%d`) -/

/-- The ASCII digit of a value below ten. -/
def digit (d : Nat) : UInt8 := UInt8.ofNat (48 + d)

/-- Digits of `n`, most significant first, pushed in front of `acc`; `fuel` bounds the
number of digits. -/
def decimalAux : Nat → Nat → Bytes → Bytes
  | 0, _, acc => acc
  | fuel + 1, n, acc =>
    if n / 10 = 0 then digit (n % 10) :: acc
    else decimalAux fuel (n / 10) (digit (n % 10) :: acc)

/-- The decimal text of a natural number (`0` is `"0"`). -/
def decimal (n : Nat) : Bytes := decimalAux (n + 1) n []

/-- The verb `%d` on an `int`. -/
def fmtD (i : Int) : Bytes :=
  if i < 0 then ascii "-" ++ decimal i.natAbs else decimal i.natAbs

/-! ## `float64` and the verb `%.2f` -/

/-- A `float64` value by class: a finite value `(-1)^neg * mant * 2^exp`, an infinity or
a NaN. Every finite `float64` is of the first form with `mant < 2^53`. -/
inductive Float64
  | finite (neg : Bool) (mant : Nat) (exp : Int)
  | inf (neg : Bool)
  | nan
  deriving DecidableEq, Repr

/-- The integer nearest to `n / d`, a tie going to the even neighbour. -/
def roundHalfEven (n d : Nat) : Nat :=
  if 2 * (n % d) < d then n / d
  else if d < 2 * (n % d) then n / d + 1
  else if (n / d) % 2 = 0 then n / d
  else n / d + 1

/-- The magnitude `mant * 2^exp` in hundredths, rounded to nearest, ties to even. -/
def hundredths (mant : Nat) (exp : Int) : Nat :=
  match exp with
  | Int.ofNat e => mant * 2 ^ e * 100
  | Int.negSucc e => roundHalfEven (mant * 100) (2 ^ (e + 1))

/-- The verb `%.2f` of package `fmt` on a `float64`: the exact value rounded to two
decimals (half to even), the sign kept also when the digits are all zero; `NaN`, `+Inf`
and `-Inf` for the values that are not finite. -/
def fmtF2 : Float64 → Bytes
  | .nan => ascii "NaN"
  | .inf false => ascii "+Inf"
  | .inf true => ascii "-Inf"
  | .finite neg mant exp =>
    (if neg then ascii "-" else []) ++ decimal (hundredths mant exp / 100) ++ ascii "."
      ++ [digit (hundredths mant exp / 10 % 10), digit (hundredths mant exp % 10)]

/-! ## Entities and snapshots (snapshots.go) -/

/-- `Entity` (main.go 17-21); `Pos` holds X, Y, Z. -/
structure Entity where
  ID : Int
  Pos : Float64 × Float64 × Float64
  State : Bytes
  deriving DecidableEq, Repr

/-- The `fmt.Sprintf` of the loop body of `generateSnapshot`. -/
def entitySnapshot (e : Entity) : Bytes :=
  ascii "EntityID:" ++ fmtD e.ID ++ ascii "|PosX:" ++ fmtF2 e.Pos.1
    ++ ascii "|PosY:" ++ fmtF2 e.Pos.2.1 ++ ascii "|PosZ:" ++ fmtF2 e.Pos.2.2
    ++ ascii "|State:" ++ e.State ++ ascii "|"

/-- `generateSnapshot` (snapshots.go 10-19): the header, then one `append` per entity. -/
def generateSnapshot (entities : List Entity) : Bytes :=
  entities.foldl (fun snapshot e => snapshot ++ entitySnapshot e) (ascii "COD1GameState|")

/-! ## Addresses, sessions and the registry -/

/-- The fields of `net.UDPAddr`. -/
structure UDPAddr where
  IP : Bytes
  Port : Int
  Zone : String
  deriving DecidableEq, Repr

/-- `ClientState` (main.go 23-26). -/
structure ClientState where
  addr : UDPAddr
  readyForSnapshots : Bool
  deriving DecidableEq, Repr

/-- The global `clients` of type `map[string]*ClientState` (main.go 38). Every
`*ClientState` is created by a handler and stored under one key only, so an entry holds
the pointed-to value. -/
abbrev Registry := List (String × ClientState)

/-- The map read `clients[k]`, with its `exists` result. -/
def Registry.get (m : Registry) (k : String) : Option ClientState :=
  (m.find? (fun e => e.1 == k)).map (fun e => e.2)

/-- The map write `clients[k] = c`. -/
def Registry.put (m : Registry) (k : String) (c : ClientState) : Registry :=
  if (m.get k).isSome then m.map (fun e => if e.1 == k then (e.1, c) else e)
  else m ++ [(k, c)]

/-- The write `client.readyForSnapshots = true` through the pointer stored under `k`. -/
def Registry.markReady (m : Registry) (k : String) : Registry :=
  m.map (fun e => if e.1 == k then (e.1, { e.2 with readyForSnapshots := true }) else e)

/-! ## The process state and its inputs -/

/-- The state of the process: the registry, the datagrams written to the socket so far
(oldest first) and whether the process has ended. -/
structure World where
  clients : Registry
  sent : List (UDPAddr × Bytes)
  halted : Bool
  deriving DecidableEq, Repr

/-- What the surroundings decide while one handler runs: the outcome of its `k`-th
`WriteToUDP` call (counted from zero), the eight bytes of `rand.Read` (`none`: an error)
and whether a debugger resumes the process after `runtime.Breakpoint`. -/
structure Env where
  sendOk : Nat → Bool
  rand : Option Bytes
  debugger : Bool

/-- `conn.WriteToUDP(b, addr)` as the `k`-th write of a handler: the datagram leaves
exactly when the call succeeds; the flag is `err == nil`. -/
def writeToUDP (env : Env) (k : Nat) (w : World) (b : Bytes) (addr : UDPAddr) : World × Bool :=
  if env.sendOk k then ({ w with sent := w.sent ++ [(addr, b)] }, true) else (w, false)

/-! ## The handlers (main.go) -/

/-- `binary.BigEndian.Uint64(b)` on the eight bytes read. -/
def bigEndianUint64 (b : Bytes) : Nat :=
  (b.take 8).foldl (fun acc x => (acc <<< 8 ||| x.toNat) % 2 ^ 64) 0

/-- `generateChallengeResponse` (main.go 167-175): `none` when `rand.Read` fails and
`log.Fatal` ends the process. -/
def generateChallengeResponse (env : Env) : Option Bytes :=
  match env.rand with
  | none => none
  | some b => some (oob ++ ascii "challengeResponse " ++ decimal (bigEndianUint64 b))

/-- `handleGetChallenge` (main.go 134-142). -/
def handleGetChallenge (env : Env) (w : World) (clientAddr : UDPAddr) : World :=
  match generateChallengeResponse env with
  | none => { w with halted := true }
  | some challengeResponse => (writeToUDP env 0 w challengeResponse clientAddr).1

/-- The slice literal of `sendConfigStrings`. -/
def configStrings : List Bytes := [ascii "mapname mp_harbor", ascii "gametype dm"]

/-- `sendConfigStrings` (main.go 230-242), its writes numbered from `k`: one packet per
entry, a failed write is logged and the loop goes on. -/
def sendConfigStrings (env : Env) (k : Nat) (w : World) (clientAddr : UDPAddr) : World :=
  (configStrings.foldl
    (fun (acc : World × Nat) configString =>
      ((writeToUDP env acc.2 acc.1 (oob ++ ascii "configString " ++ configString ++ ascii "\n")
          clientAddr).1, acc.2 + 1))
    (w, k)).1

/-- `sendGameState` (main.go 201-209), its writes numbered from `k`; `clientKey` is the
key under which the `client` pointer is stored. -/
def sendGameState (env : Env) (k : Nat) (w : World) (clientAddr : UDPAddr)
    (clientKey : String) : World :=
  let w1 := sendConfigStrings env k w clientAddr
  { w1 with clients := w1.clients.markReady clientKey }

/-- `handleConnectRequest` (main.go 144-165); `str` is the method `(*UDPAddr).String`. -/
def handleConnectRequest (str : UDPAddr → String) (env : Env) (w : World)
    (clientAddr : UDPAddr) (_receivedData : Bytes) : World :=
  let connectResponse := oob ++ ascii "connectResponse\n"
    ++ ascii "sessionid=unique_session_id;map=nom_de_la_carte;status=ok;"
  let r := writeToUDP env 0 w connectResponse clientAddr
  if !r.2 then r.1
  else
    let clientKey := str clientAddr
    let w1 : World :=
      match r.1.clients.get clientKey with
      | some _ => r.1
      | none =>
        { r.1 with clients :=
            r.1.clients.put clientKey { addr := clientAddr, readyForSnapshots := false } }
    let w2 := sendConfigStrings env 1 w1 clientAddr
    sendGameState env (1 + configStrings.length) w2 clientAddr clientKey

/-- `handleAck` (main.go 181-199): a failed write reaches `runtime.Breakpoint()`, which
ends the process unless a debugger resumes it. -/
def handleAck (str : UDPAddr → String) (env : Env) (w : World) (clientAddr : UDPAddr) : World :=
  let gameState := oob ++ ascii "gamestate map=mp_harbor;gametype=dm;"
  let r := writeToUDP env 0 w gameState clientAddr
  if !r.2 then { r.1 with halted := !env.debugger }
  else
    let clientKey := str clientAddr
    match r.1.clients.get clientKey with
    | some _ => { r.1 with clients := r.1.clients.markReady clientKey }
    | none =>
      { r.1 with clients :=
          r.1.clients.put clientKey { addr := clientAddr, readyForSnapshots := true } }

/-- `handleStatusUpdate` (main.go 211-219): both outcomes only log. -/
def handleStatusUpdate (w : World) (_clientAddr : UDPAddr) (receivedData : Bytes) : World :=
  match parseSequenceNumber receivedData with
  | .error _ => w
  | .ok _sequenceNumber => w

/-- `handle16BytePacket` (main.go 268-272): decodes `data[:4]` and logs it. A slice too
short for the decoder is a run-time panic; the handler is only reached with 16 bytes. -/
def handle16BytePacket (w : World) (_clientAddr : UDPAddr) (data : Bytes) : World :=
  match bigEndianUint32 (data.take 4) with
  | some _sequenceNumber => w
  | none => { w with halted := true }

/-- The result of `conn.ReadFromUDP(buffer)`: an error, or the sender and `buffer[:n]`. -/
inductive ReadResult
  | failed
  | datagram (clientAddr : UDPAddr) (data : Bytes)

/-- `handleClient` (main.go 244-266). -/
def handleClient (str : UDPAddr → String) (env : Env) (w : World) : ReadResult → World
  | .failed => w
  | .datagram clientAddr receivedData =>
    match selectHandler receivedData with
    | .GetChallenge => handleGetChallenge env w clientAddr
    | .Connect => handleConnectRequest str env w clientAddr receivedData
    | .Ack => handleAck str env w clientAddr
    | .SixteenByteControl => handle16BytePacket w clientAddr receivedData
    | .StatusUpdate => handleStatusUpdate w clientAddr receivedData

/-- The receive loop `for { handleClient(conn) }` of `main` over a finite run of reads,
each with its surroundings; nothing runs once the process has ended. -/
def serve (str : UDPAddr → String) (w : World) : List (Env × ReadResult) → World
  | [] => w
  | (env, r) :: rest =>
    if w.halted then w else serve str (handleClient str env w r) rest

/-! ## The snapshot sender (snapshots.go, and the goroutine of `main`) -/

/-- `sendSnapshotsToClient` (snapshots.go 21-27) as the `k`-th write of a round. -/
def sendSnapshotsToClient (env : Env) (k : Nat) (w : World) (clientAddr : UDPAddr)
    (entities : List Entity) : World :=
  (writeToUDP env k w (oob ++ ascii "snapshot\n" ++ generateSnapshot entities) clientAddr).1

/-- One pass of the outer `for` of `sendRegularSnapshots` (snapshots.go 29-36) over its
`clients` argument. -/
def snapshotRound (env : Env) (w : World) (clients : List UDPAddr)
    (entities : List Entity) : World :=
  (clients.foldl
    (fun (acc : World × Nat) clientAddr =>
      (sendSnapshotsToClient env acc.2 acc.1 clientAddr entities, acc.2 + 1))
    (w, 0)).1

/-- The list the goroutine of `main` builds before it calls `sendRegularSnapshots`
(main.go 70-73): the address of every session of the registry. -/
def goroutineAddresses (clients : Registry) : List UDPAddr :=
  clients.map (fun e => e.2.addr)

/-- The list `main` builds at lines 58-63 and never passes on: the addresses of the
sessions that are ready. -/
def readyAddresses (clients : Registry) : List UDPAddr :=
  (clients.filter (fun e => e.2.readyForSnapshots)).map (fun e => e.2.addr)

/-- The `entities` literal of `main` (main.go 65-67). -/
def mainEntities : List Entity :=
  [{ ID := 1, Pos := (.finite false 100 0, .finite false 200 0, .finite false 300 0),
     State := ascii "active" }]

/-- The running server: the process state and the argument `clients` that
`sendRegularSnapshots` received when the goroutine called it. -/
structure Server where
  world : World
  targets : List UDPAddr

/-- What happens next: a read of the receive loop, or a round of the snapshot loop. -/
inductive Event
  | recv (env : Env) (r : ReadResult)
  | tick (env : Env)

/-- One event on the running server. -/
def Server.step (str : UDPAddr → String) (s : Server) : Event → Server
  | .recv env r =>
    if s.world.halted then s else { s with world := handleClient str env s.world r }
  | .tick env =>
    if s.world.halted then s
    else { s with world := snapshotRound env s.world s.targets mainEntities }

/-- `main` after its set-up: the registry is the empty map of line 38, the goroutine has
built its list from it, and the events follow. -/
def mainRun (str : UDPAddr → String) (events : List Event) : Server :=
  events.foldl (Server.step str)
    { world := { clients := [], sent := [], halted := false },
      targets := goroutineAddresses [] }

/-! ## Sample inputs -/

/-- The text `a.b.c.d:port`, which `(*UDPAddr).String` gives for an IPv4 address without
a zone; the rendering used in the examples. -/
def hostPort (a : UDPAddr) : String :=
  String.intercalate "." (a.IP.map (fun b => toString b.toNat)) ++ ":" ++ toString a.Port

/-- Surroundings in which every write succeeds. -/
def allSendsOk : Env := { sendOk := fun _ => true, rand := some [0, 0, 0, 0, 0, 0, 0, 7], debugger := false }

/-- Surroundings in which every write fails. -/
def noSendOk : Env := { sendOk := fun _ => false, rand := some [0, 0, 0, 0, 0, 0, 0, 7], debugger := true }

/-- The peer `127.0.0.1:5000`. -/
def peerA : UDPAddr := { IP := [127, 0, 0, 1], Port := 5000, Zone := "" }

/-- A connect request of exactly 136 bytes. -/
def connect136 : Bytes := oob ++ ascii "connect" ++ List.replicate 125 32

/-! ## The snapshot format in the words of the specification -/

/-- An ASCII decimal digit. -/
def isDigit (b : UInt8) : Bool := decide (48 ≤ b.toNat) && decide (b.toNat ≤ 57)

/-- A number written with exactly two decimal places: an optional minus sign, one or more
digits, a point and two digits. -/
def isTwoDecimalPlaces (s : Bytes) : Bool :=
  let body := if s.head? = some 45 then s.tail else s
  !(body.takeWhile isDigit).isEmpty &&
    (match body.dropWhile isDigit with
     | [dot, d1, d2] => dot == 46 && isDigit d1 && isDigit d2
     | _ => false)

/-- The snapshot text the specification describes for `entities`: the header, then per
entity, in input order, the line `EntityID:<id>|PosX:<x>|PosY:<y>|PosZ:<z>|State:<state>|`
whose three coordinates are written with exactly two decimal places. -/
def SnapshotAsSpecified (entities : List Entity) (out : Bytes) : Prop :=
  ∃ coords : List (Bytes × Bytes × Bytes),
    coords.length = entities.length ∧
    (∀ c ∈ coords, isTwoDecimalPlaces c.1 = true ∧ isTwoDecimalPlaces c.2.1 = true ∧
      isTwoDecimalPlaces c.2.2 = true) ∧
    out = ascii "COD1GameState|" ++
      (List.zipWith (fun (e : Entity) (c : Bytes × Bytes × Bytes) =>
        ascii "EntityID:" ++ fmtD e.ID ++ ascii "|PosX:" ++ c.1 ++ ascii "|PosY:" ++ c.2.1
          ++ ascii "|PosZ:" ++ c.2.2 ++ ascii "|State:" ++ e.State ++ ascii "|")
        entities coords).flatten

/-- The number a decimal numeral denotes. -/
def decimalValue (s : Bytes) : Nat := s.foldl (fun acc b => acc * 10 + (b.toNat - 48)) 0

/-! ## Classification -/

theorem hasPrefix_iff (s p : Bytes) : HasPrefix s p = true ↔ p <+: s := by
  unfold HasPrefix
  rw [List.prefix_iff_eq_take]
  constructor
  · intro h
    simp only [Bool.and_eq_true, decide_eq_true_eq, beq_iff_eq] at h
    exact h.2.symm
  · intro h
    simp only [Bool.and_eq_true, decide_eq_true_eq, beq_iff_eq]
    refine ⟨?_, h.symm⟩
    have := congrArg List.length h
    rw [List.length_take] at this
    omega

theorem hasPrefix_false_iff (s p : Bytes) : HasPrefix s p = false ↔ ¬ p <+: s := by
  rw [← hasPrefix_iff, Bool.not_eq_true]

/-- Two prefixes of one payload: the shorter is a prefix of the longer. -/
theorem not_prefix_of_prefix {s p q : Bytes} (hp : p <+: s) (hlen : q.length ≤ p.length)
    (hq : ¬ q <+: p) : ¬ q <+: s :=
  fun h => hq (List.prefix_of_prefix_length_le h hp hlen)

theorem not_prefix_of_prefix_ge {s p q : Bytes} (hp : p <+: s) (hlen : p.length ≤ q.length)
    (hq : ¬ p <+: q) : ¬ q <+: s :=
  fun h => hq (List.prefix_of_prefix_length_le hp h hlen)

/-- C1: the `if` chain of `handleClient` picks its handler by first match: GetChallenge
on marker+"getchallenge"; else Connect on marker+"connect" with at least 136 bytes; else
Ack on marker+"ack"; else SixteenByteControl on a length of exactly 16; else StatusUpdate.
A payload that starts with marker+"connect" and is shorter than 136 bytes goes to
SixteenByteControl when its length is 16 and to StatusUpdate otherwise. -/
theorem selectHandler_first_match (p : Bytes) :
    ([0xFF, 0xFF, 0xFF, 0xFF] ++ ascii "getchallenge" <+: p → selectHandler p = .GetChallenge) ∧
    (¬ [0xFF, 0xFF, 0xFF, 0xFF] ++ ascii "getchallenge" <+: p →
      [0xFF, 0xFF, 0xFF, 0xFF] ++ ascii "connect" <+: p → 136 ≤ p.length →
      selectHandler p = .Connect) ∧
    (¬ [0xFF, 0xFF, 0xFF, 0xFF] ++ ascii "getchallenge" <+: p →
      ¬ ([0xFF, 0xFF, 0xFF, 0xFF] ++ ascii "connect" <+: p ∧ 136 ≤ p.length) →
      [0xFF, 0xFF, 0xFF, 0xFF] ++ ascii "ack" <+: p →
      selectHandler p = .Ack) ∧
    (¬ [0xFF, 0xFF, 0xFF, 0xFF] ++ ascii "getchallenge" <+: p →
      ¬ ([0xFF, 0xFF, 0xFF, 0xFF] ++ ascii "connect" <+: p ∧ 136 ≤ p.length) →
      ¬ [0xFF, 0xFF, 0xFF, 0xFF] ++ ascii "ack" <+: p →
      (p.length = 16 → selectHandler p = .SixteenByteControl) ∧
      (p.length ≠ 16 → selectHandler p = .StatusUpdate)) ∧
    ([0xFF, 0xFF, 0xFF, 0xFF] ++ ascii "connect" <+: p → p.length < 136 →
      (p.length = 16 → selectHandler p = .SixteenByteControl) ∧
      (p.length ≠ 16 → selectHandler p = .StatusUpdate)) := by
  have tail : ¬ [0xFF, 0xFF, 0xFF, 0xFF] ++ ascii "getchallenge" <+: p →
      ¬ ([0xFF, 0xFF, 0xFF, 0xFF] ++ ascii "connect" <+: p ∧ 136 ≤ p.length) →
      ¬ [0xFF, 0xFF, 0xFF, 0xFF] ++ ascii "ack" <+: p →
      (p.length = 16 → selectHandler p = .SixteenByteControl) ∧
      (p.length ≠ 16 → selectHandler p = .StatusUpdate) := by
    intro hg hc ha
    have hg' := (hasPrefix_false_iff p (oob ++ ascii "getchallenge")).2 hg
    have ha' := (hasPrefix_false_iff p (oob ++ ascii "ack")).2 ha
    have hc' : (HasPrefix p (oob ++ ascii "connect") && decide (p.length ≥ 136)) = false := by
      rw [Bool.and_eq_false_iff]
      by_cases h : [0xFF, 0xFF, 0xFF, 0xFF] ++ ascii "connect" <+: p
      · right
        have : ¬ 136 ≤ p.length := fun h2 => hc ⟨h, h2⟩
        simpa using this
      · left
        exact (hasPrefix_false_iff p (oob ++ ascii "connect")).2 h
    unfold selectHandler
    rw [hg', hc', ha']
    constructor
    · intro h16
      simp [h16]
    · intro h16
      simp [h16]
  refine ⟨?_, ?_, ?_, tail, ?_⟩
  · intro hg
    have hg' := (hasPrefix_iff p (oob ++ ascii "getchallenge")).2 hg
    unfold selectHandler
    rw [hg']
    rfl
  · intro hg hc hlen
    have hg' := (hasPrefix_false_iff p (oob ++ ascii "getchallenge")).2 hg
    have hc' := (hasPrefix_iff p (oob ++ ascii "connect")).2 hc
    unfold selectHandler
    rw [hg', hc']
    simp [hlen]
  · intro hg hc ha
    have hg' := (hasPrefix_false_iff p (oob ++ ascii "getchallenge")).2 hg
    have ha' := (hasPrefix_iff p (oob ++ ascii "ack")).2 ha
    have hc' : (HasPrefix p (oob ++ ascii "connect") && decide (p.length ≥ 136)) = false := by
      rw [Bool.and_eq_false_iff]
      by_cases h : [0xFF, 0xFF, 0xFF, 0xFF] ++ ascii "connect" <+: p
      · right
        have : ¬ 136 ≤ p.length := fun h2 => hc ⟨h, h2⟩
        simpa using this
      · left
        exact (hasPrefix_false_iff p (oob ++ ascii "connect")).2 h
    unfold selectHandler
    rw [hg', hc', ha']
    rfl
  · intro hc hlen
    refine tail ?_ ?_ ?_
    · exact not_prefix_of_prefix_ge hc (by decide) (by decide)
    · intro h
      omega
    · exact not_prefix_of_prefix hc (by decide) (by decide)

theorem selectHandler_first_match_witness :
    selectHandler ([0xFF, 0xFF, 0xFF, 0xFF] ++ ascii "connect" ++ [0, 0, 0, 0, 0]) =
      .SixteenByteControl :=
  ((selectHandler_first_match ([0xFF, 0xFF, 0xFF, 0xFF] ++ ascii "connect" ++ [0, 0, 0, 0, 0])).2.2.2.2
    (by decide) (by decide)).1 (by decide)

/-! ## Sequence numbers -/

theorem toInt64_of_lt {n : Nat} (h : n < 2 ^ 32) : toInt64 n = (n : Int) := by
  unfold toInt64
  have h1 : n % 2 ^ 64 = n := Nat.mod_eq_of_lt (by omega)
  rw [h1, if_pos (by omega)]

theorem bigEndianUint32_eq (b0 b1 b2 b3 : UInt8) (rest : Bytes) :
    bigEndianUint32 (b0 :: b1 :: b2 :: b3 :: rest) =
      some (b0.toNat * 2 ^ 24 + b1.toNat * 2 ^ 16 + b2.toNat * 2 ^ 8 + b3.toNat) := by
  have h0 : b0.toNat < 2 ^ 8 := b0.toNat_lt
  have h1 : b1.toNat < 2 ^ 8 := b1.toNat_lt
  have h2 : b2.toNat < 2 ^ 8 := b2.toNat_lt
  have h3 : b3.toNat < 2 ^ 8 := b3.toNat_lt
  simp only [bigEndianUint32, Option.some.injEq, Nat.shiftLeft_eq]
  have e2 : b2.toNat * 2 ^ 8 % 2 ^ 32 = b2.toNat * 2 ^ 8 := Nat.mod_eq_of_lt (by omega)
  have e1 : b1.toNat * 2 ^ 16 % 2 ^ 32 = b1.toNat * 2 ^ 16 := Nat.mod_eq_of_lt (by omega)
  have e0 : b0.toNat * 2 ^ 24 % 2 ^ 32 = b0.toNat * 2 ^ 24 := Nat.mod_eq_of_lt (by omega)
  rw [e2, e1, e0]
  have s1 : b3.toNat ||| b2.toNat * 2 ^ 8 = b2.toNat * 2 ^ 8 + b3.toNat := by
    rw [Nat.or_comm, Nat.mul_comm, ← Nat.mul_add_lt_is_or h3]
  have s2 : (b2.toNat * 2 ^ 8 + b3.toNat) ||| b1.toNat * 2 ^ 16
      = b1.toNat * 2 ^ 16 + (b2.toNat * 2 ^ 8 + b3.toNat) := by
    rw [Nat.or_comm, Nat.mul_comm, ← Nat.mul_add_lt_is_or (by omega)]
  have s3 : (b1.toNat * 2 ^ 16 + (b2.toNat * 2 ^ 8 + b3.toNat)) ||| b0.toNat * 2 ^ 24
      = b0.toNat * 2 ^ 24 + (b1.toNat * 2 ^ 16 + (b2.toNat * 2 ^ 8 + b3.toNat)) := by
    rw [Nat.or_comm, Nat.mul_comm, ← Nat.mul_add_lt_is_or (by omega)]
  rw [s1, s2, s3]
  rw [Nat.mod_eq_of_lt (by omega)]
  omega

/-- C2: `parseSequenceNumber` fails exactly on a payload under four bytes; on a longer
one it returns the big-endian value `b0*2^24 + b1*2^16 + b2*2^8 + b3` of the first four
bytes, a value in `[0, 2^32)`, whatever follows; `00 00 00 2A` decodes to 42 and every
three-byte payload is rejected. -/
theorem parseSequenceNumber_spec :
    (∀ p : Bytes, (∃ msg, parseSequenceNumber p = .error msg) ↔ p.length < 4) ∧
    (∀ (b0 b1 b2 b3 : UInt8) (rest : Bytes),
      parseSequenceNumber (b0 :: b1 :: b2 :: b3 :: rest) =
        .ok ((b0.toNat * 2 ^ 24 + b1.toNat * 2 ^ 16 + b2.toNat * 2 ^ 8 + b3.toNat : Nat) : Int) ∧
      b0.toNat * 2 ^ 24 + b1.toNat * 2 ^ 16 + b2.toNat * 2 ^ 8 + b3.toNat < 2 ^ 32) ∧
    parseSequenceNumber [0x00, 0x00, 0x00, 0x2A] = .ok 42 ∧
    (∀ a b c : UInt8, ∃ msg, parseSequenceNumber [a, b, c] = .error msg) := by
  have long : ∀ (b0 b1 b2 b3 : UInt8) (rest : Bytes),
      parseSequenceNumber (b0 :: b1 :: b2 :: b3 :: rest) =
        .ok ((b0.toNat * 2 ^ 24 + b1.toNat * 2 ^ 16 + b2.toNat * 2 ^ 8 + b3.toNat : Nat) : Int) ∧
      b0.toNat * 2 ^ 24 + b1.toNat * 2 ^ 16 + b2.toNat * 2 ^ 8 + b3.toNat < 2 ^ 32 := by
    intro b0 b1 b2 b3 rest
    have h0 : b0.toNat < 2 ^ 8 := b0.toNat_lt
    have h1 : b1.toNat < 2 ^ 8 := b1.toNat_lt
    have h2 : b2.toNat < 2 ^ 8 := b2.toNat_lt
    have h3 : b3.toNat < 2 ^ 8 := b3.toNat_lt
    have hlt : b0.toNat * 2 ^ 24 + b1.toNat * 2 ^ 16 + b2.toNat * 2 ^ 8 + b3.toNat < 2 ^ 32 := by
      omega
    refine ⟨?_, hlt⟩
    unfold parseSequenceNumber
    rw [if_neg (by simp)]
    have ht : List.take 4 (b0 :: b1 :: b2 :: b3 :: rest) = [b0, b1, b2, b3] := by simp
    rw [ht, bigEndianUint32_eq]
    simp only
    rw [toInt64_of_lt hlt]
  refine ⟨?_, long, by decide, ?_⟩
  · intro p
    constructor
    · rintro ⟨msg, h⟩
      by_contra hlen
      obtain _ | ⟨b0, _ | ⟨b1, _ | ⟨b2, _ | ⟨b3, rest⟩⟩⟩⟩ := p <;>
        simp at hlen
      rw [(long b0 b1 b2 b3 rest).1] at h
      cases h
    · intro hlen
      refine ⟨"paquet trop court", ?_⟩
      unfold parseSequenceNumber
      rw [if_pos hlen]
  · intro a b c
    refine ⟨"paquet trop court", ?_⟩
    unfold parseSequenceNumber
    rw [if_pos (by simp)]

/-! ## Snapshots -/

theorem isDigit_digit {d : Nat} (h : d < 10) : isDigit (digit d) = true := by
  interval_cases d <;> decide

theorem decimalAux_digits (fuel : Nat) : ∀ (n : Nat) (acc : Bytes),
    (∀ b ∈ acc, isDigit b = true) → ∀ b ∈ decimalAux fuel n acc, isDigit b = true := by
  induction fuel with
  | zero => intro n acc h; simpa [decimalAux] using h
  | succ fuel ih =>
    intro n acc h
    have hd : isDigit (digit (n % 10)) = true := isDigit_digit (Nat.mod_lt _ (by decide))
    have hacc : ∀ b ∈ digit (n % 10) :: acc, isDigit b = true := by
      intro b hb
      rcases List.mem_cons.1 hb with rfl | hb
      · exact hd
      · exact h b hb
    unfold decimalAux
    split
    · exact hacc
    · exact ih _ _ hacc

theorem decimalAux_ne_nil (fuel : Nat) : ∀ (n : Nat) (acc : Bytes),
    acc ≠ [] → decimalAux fuel n acc ≠ [] := by
  induction fuel with
  | zero => intro n acc h; simpa [decimalAux] using h
  | succ fuel ih =>
    intro n acc _
    unfold decimalAux
    split
    · simp
    · exact ih _ _ (by simp)

theorem decimal_digits (n : Nat) : ∀ b ∈ decimal n, isDigit b = true :=
  decimalAux_digits _ _ _ (by simp)

theorem decimal_ne_nil (n : Nat) : decimal n ≠ [] := by
  unfold decimal decimalAux
  split
  · simp
  · exact decimalAux_ne_nil _ _ _ (by simp)

/-- A sign, a decimal numeral, a point and two digits make a two-decimal text. -/
theorem isTwoDecimalPlaces_render (neg : Bool) (n a b : Nat) (ha : a < 10) (hb : b < 10) :
    isTwoDecimalPlaces ((if neg then ascii "-" else []) ++ decimal n ++ ascii "."
      ++ [digit a, digit b]) = true := by
  have hne := decimal_ne_nil n
  have hdig := decimal_digits n
  have hbody : (if ((if neg then ascii "-" else []) ++ decimal n ++ ascii "."
      ++ [digit a, digit b]).head? = some 45 then
        ((if neg then ascii "-" else []) ++ decimal n ++ ascii "." ++ [digit a, digit b]).tail
      else (if neg then ascii "-" else []) ++ decimal n ++ ascii "." ++ [digit a, digit b])
      = decimal n ++ ([46, digit a, digit b] : Bytes) := by
    have hdot : ascii "." = [46] := by decide
    cases neg with
    | true =>
      have : ascii "-" = [45] := by decide
      simp [this, hdot]
    | false =>
      obtain ⟨c, t, hct⟩ := List.exists_cons_of_ne_nil hne
      have hc : isDigit c = true := hdig c (by rw [hct]; simp)
      have hc45 : c ≠ 45 := by
        rintro rfl
        exact absurd hc (by decide)
      simp [hct, hc45, hdot]
  unfold isTwoDecimalPlaces
  simp only [hbody]
  rw [List.takeWhile_append_of_pos hdig, List.dropWhile_append_of_pos hdig]
  have h46 : isDigit 46 = false := by decide
  simp [List.takeWhile, List.dropWhile, h46, hne, isDigit_digit ha, isDigit_digit hb]

theorem generateSnapshot_fold (es : List Entity) (init : Bytes) :
    es.foldl (fun snapshot e => snapshot ++ entitySnapshot e) init =
      init ++ (es.map entitySnapshot).flatten := by
  induction es generalizing init with
  | nil => simp
  | cons e es ih => simp [ih, List.append_assoc]

/-- The nearest hundredth is within half a unit of the exact quotient. -/
theorem roundHalfEven_near (n d : Nat) (hd : 0 < d) :
    2 * n ≤ 2 * (d * roundHalfEven n d) + d ∧ 2 * (d * roundHalfEven n d) ≤ 2 * n + d := by
  have h1 := Nat.div_add_mod n d
  have h2 := Nat.mod_lt n hd
  unfold roundHalfEven
  split_ifs <;> first | omega | (rw [Nat.mul_add, Nat.mul_one]; omega)

/-- On a tie the nearest hundredth chosen is the even one. -/
theorem roundHalfEven_tie_even (n d : Nat) (hd : 0 < d)
    (h : 2 * n = 2 * (d * roundHalfEven n d) + d ∨ 2 * (d * roundHalfEven n d) = 2 * n + d) :
    roundHalfEven n d % 2 = 0 := by
  have h1 := Nat.div_add_mod n d
  have h2 := Nat.mod_lt n hd
  unfold roundHalfEven at h ⊢
  split_ifs at h ⊢ <;> first | omega | (rw [Nat.mul_add, Nat.mul_one] at h; omega)

/-- The hundredths printed are the exact value times one hundred, rounded to the nearest
integer, and the even neighbour when the value lies half way. -/
theorem hundredths_nearest (mant : Nat) (exp : Int) :
    |(mant : ℚ) * (2 : ℚ) ^ exp * 100 - (hundredths mant exp : ℚ)| ≤ 1 / 2 ∧
    (|(mant : ℚ) * (2 : ℚ) ^ exp * 100 - (hundredths mant exp : ℚ)| = 1 / 2 →
      hundredths mant exp % 2 = 0) := by
  cases exp with
  | ofNat e =>
    have h0 : (mant : ℚ) * (2 : ℚ) ^ (Int.ofNat e) * 100 -
        ((hundredths mant (Int.ofNat e) : Nat) : ℚ) = 0 := by
      simp [hundredths]
    rw [h0]
    norm_num
  | negSucc e =>
    have hdn : 0 < 2 ^ (e + 1) := Nat.pow_pos (by decide)
    have hD : (0 : ℚ) < ((2 ^ (e + 1) : Nat) : ℚ) := by exact_mod_cast hdn
    obtain ⟨n1, n2⟩ := roundHalfEven_near (mant * 100) (2 ^ (e + 1)) hdn
    have q1 : (2 : ℚ) * ((mant * 100 : Nat) : ℚ) ≤
        2 * (((2 ^ (e + 1) : Nat) : ℚ) * (roundHalfEven (mant * 100) (2 ^ (e + 1)) : ℚ))
          + ((2 ^ (e + 1) : Nat) : ℚ) := by exact_mod_cast n1
    have q2 : (2 : ℚ) * (((2 ^ (e + 1) : Nat) : ℚ) *
        (roundHalfEven (mant * 100) (2 ^ (e + 1)) : ℚ)) ≤
        2 * ((mant * 100 : Nat) : ℚ) + ((2 ^ (e + 1) : Nat) : ℚ) := by exact_mod_cast n2
    have key : (mant : ℚ) * (2 : ℚ) ^ (Int.negSucc e) * 100 -
        ((hundredths mant (Int.negSucc e) : Nat) : ℚ) =
        (((mant * 100 : Nat) : ℚ) - ((2 ^ (e + 1) : Nat) : ℚ) *
          (roundHalfEven (mant * 100) (2 ^ (e + 1)) : ℚ)) / ((2 ^ (e + 1) : Nat) : ℚ) := by
      rw [zpow_negSucc]
      simp only [hundredths]
      push_cast
      field_simp
    rw [key, abs_div, abs_of_pos hD]
    constructor
    · rw [div_le_iff₀ hD, abs_le]
      constructor <;> linarith
    · intro htie
      have h3 : |((mant * 100 : Nat) : ℚ) - ((2 ^ (e + 1) : Nat) : ℚ) *
          (roundHalfEven (mant * 100) (2 ^ (e + 1)) : ℚ)| = ((2 ^ (e + 1) : Nat) : ℚ) / 2 := by
        field_simp at htie ⊢
        linarith
      show roundHalfEven (mant * 100) (2 ^ (e + 1)) % 2 = 0
      apply roundHalfEven_tie_even _ _ hdn
      rcases (abs_eq (by positivity)).1 h3 with h4 | h4
      · left
        have : (2 : ℚ) * ((mant * 100 : Nat) : ℚ) =
            2 * (((2 ^ (e + 1) : Nat) : ℚ) * (roundHalfEven (mant * 100) (2 ^ (e + 1)) : ℚ))
              + ((2 ^ (e + 1) : Nat) : ℚ) := by linarith
        exact_mod_cast this
      · right
        have : (2 : ℚ) * (((2 ^ (e + 1) : Nat) : ℚ) *
            (roundHalfEven (mant * 100) (2 ^ (e + 1)) : ℚ)) =
            2 * ((mant * 100 : Nat) : ℚ) + ((2 ^ (e + 1) : Nat) : ℚ) := by linarith
        exact_mod_cast this

theorem decimalAux_value (fuel : Nat) : ∀ (n : Nat) (acc : Bytes), n < 10 ^ fuel →
    (decimalAux fuel n acc).foldl (fun a b => a * 10 + (b.toNat - 48)) 0 =
      acc.foldl (fun a b => a * 10 + (b.toNat - 48)) n := by
  induction fuel with
  | zero =>
    intro n acc h
    have : n = 0 := by simpa using h
    subst this
    rfl
  | succ fuel ih =>
    intro n acc h
    have hd : (digit (n % 10)).toNat - 48 = n % 10 := by
      have : n % 10 < 10 := Nat.mod_lt _ (by decide)
      interval_cases n % 10 <;> rfl
    unfold decimalAux
    split
    · rename_i h0
      simp only [List.foldl_cons, hd]
      congr 1
      omega
    · rw [ih _ _ (by rw [Nat.pow_succ] at h; omega)]
      simp only [List.foldl_cons, hd]
      congr 1
      omega

theorem decimalValue_decimal (n : Nat) : decimalValue (decimal n) = n := by
  unfold decimalValue decimal
  rw [decimalAux_value _ _ _ (Nat.lt_trans (Nat.lt_succ_self n) (Nat.lt_pow_self (by decide) _))]
  rfl

theorem digit_ne_zero_char {d : Nat} (h0 : 0 < d) (h : d < 10) : digit d ≠ 48 := by
  interval_cases d <;> decide

theorem decimalAux_head (fuel : Nat) : ∀ (n : Nat) (acc : Bytes), 0 < n → n < 10 ^ fuel →
    ∃ d t, 0 < d ∧ d < 10 ∧ decimalAux fuel n acc = digit d :: t := by
  induction fuel with
  | zero =>
    intro n acc h0 h
    simp at h
    omega
  | succ fuel ih =>
    intro n acc h0 h
    unfold decimalAux
    split
    · rename_i hz
      exact ⟨n % 10, acc, by omega, Nat.mod_lt _ (by decide), rfl⟩
    · rename_i hz
      exact ih _ _ (by omega) (by rw [Nat.pow_succ] at h; omega)

/-- A positive number is written without a leading zero. -/
theorem decimal_head (n : Nat) (h0 : 0 < n) : (decimal n).head? ≠ some 48 := by
  obtain ⟨d, t, hd0, hd, e⟩ := decimalAux_head (n + 1) n [] h0
    (Nat.lt_trans (Nat.lt_succ_self n) (Nat.lt_pow_self (by decide) _))
  unfold decimal
  rw [e]
  simpa using digit_ne_zero_char hd0 hd

theorem fmtF2_finite (neg : Bool) (mant : Nat) (exp : Int) :
    fmtF2 (.finite neg mant exp) =
      (if neg then [45] else []) ++ decimal (hundredths mant exp / 100) ++
        [46, UInt8.ofNat (48 + hundredths mant exp / 10 % 10),
          UInt8.ofNat (48 + hundredths mant exp % 10)] := by
  have h1 : ascii "-" = [45] := by decide
  have h2 : ascii "." = [46] := by decide
  simp only [fmtF2, h1, h2, digit, List.append_assoc, List.singleton_append]

/-- C6 (as amended): `generateSnapshot` returns the header followed, for each entity in
input order, by `EntityID:<id>|PosX:<x>|PosY:<y>|PosZ:<z>|State:<state>|`, all literals
in ASCII; the id is the decimal numeral of its magnitude (digits only, no leading zero)
after a minus sign when it is negative; a finite coordinate is written with exactly two
decimal places, as the minus sign when its sign bit is set, then the numeral of `h / 100`,
a point and the two digits of `h % 100`, where `h` is the exact value times one hundred
rounded to the nearest integer (the even one on a tie); a coordinate that is not finite is
written `NaN`, `+Inf` or `-Inf`; the empty list gives the header alone and the entity
`{1, (100.0, 200.0, 300.0), "active"}` gives the text of the specification. -/
theorem generateSnapshot_format :
    (∀ es : List Entity, generateSnapshot es = ascii "COD1GameState|" ++
      (es.map (fun e => ascii "EntityID:" ++ fmtD e.ID ++ ascii "|PosX:" ++ fmtF2 e.Pos.1
        ++ ascii "|PosY:" ++ fmtF2 e.Pos.2.1 ++ ascii "|PosZ:" ++ fmtF2 e.Pos.2.2
        ++ ascii "|State:" ++ e.State ++ ascii "|")).flatten) ∧
    ((∀ s : String, ascii s = s.toList.map (fun c => UInt8.ofNat c.toNat)) ∧
      ascii "COD1GameState|" = [67, 79, 68, 49, 71, 97, 109, 101, 83, 116, 97, 116, 101, 124]) ∧
    (∀ i : Int, fmtD i = (if i < 0 then [45] else []) ++ decimal i.natAbs) ∧
    (∀ n : Nat, (decimal n).foldl (fun acc b => acc * 10 + (b.toNat - 48)) 0 = n ∧
      (∀ b ∈ decimal n, 48 ≤ b.toNat ∧ b.toNat ≤ 57) ∧
      (0 < n → (decimal n).head? ≠ some 48)) ∧
    decimal 0 = [48] ∧
    (∀ (neg : Bool) (mant : Nat) (exp : Int), ∃ h : Nat,
      |(mant : ℚ) * (2 : ℚ) ^ exp * 100 - (h : ℚ)| ≤ 1 / 2 ∧
      (|(mant : ℚ) * (2 : ℚ) ^ exp * 100 - (h : ℚ)| = 1 / 2 → h % 2 = 0) ∧
      fmtF2 (.finite neg mant exp) =
        (if neg then [45] else []) ++ decimal (h / 100) ++
          [46, UInt8.ofNat (48 + h / 10 % 10), UInt8.ofNat (48 + h % 10)] ∧
      isTwoDecimalPlaces (fmtF2 (.finite neg mant exp)) = true) ∧
    fmtF2 .nan = ascii "NaN" ∧ fmtF2 (.inf false) = ascii "+Inf" ∧
    fmtF2 (.inf true) = ascii "-Inf" ∧
    generateSnapshot [] = ascii "COD1GameState|" ∧
    generateSnapshot
        [⟨1, (.finite false 100 0, .finite false 200 0, .finite false 300 0), ascii "active"⟩] =
      ascii "COD1GameState|EntityID:1|PosX:100.00|PosY:200.00|PosZ:300.00|State:active|" := by
  refine ⟨?_, ⟨fun _ => rfl, by decide⟩, ?_, ?_, by decide, ?_, rfl, rfl, rfl, rfl, by decide⟩
  · intro es
    unfold generateSnapshot
    rw [generateSnapshot_fold]
    rfl
  · intro i
    have h1 : ascii "-" = [45] := by decide
    unfold fmtD
    split <;> simp [h1]
  · intro n
    refine ⟨decimalValue_decimal n, fun b hb => ?_, decimal_head n⟩
    have := decimal_digits n b hb
    simpa [isDigit] using this
  · intro neg mant exp
    exact ⟨hundredths mant exp, (hundredths_nearest mant exp).1, (hundredths_nearest mant exp).2,
      fmtF2_finite neg mant exp,
      isTwoDecimalPlaces_render neg _ _ _ (Nat.mod_lt _ (by decide)) (Nat.mod_lt _ (by decide))⟩

theorem generateSnapshot_format_witness :
    (decimal 1203).head? ≠ some 48 :=
  (generateSnapshot_format.2.2.2.1 1203).2.2 (by decide)

/-- C6 (as stated) fails: an entity with a NaN coordinate is serialized with the text
`NaN` in the place of `PosX`, which is not a number with two decimal places. -/
theorem generateSnapshot_nan_not_specified :
    ¬ SnapshotAsSpecified
      [⟨1, (.nan, .finite false 0 0, .finite false 0 0), ascii "active"⟩]
      (generateSnapshot [⟨1, (.nan, .finite false 0 0, .finite false 0 0), ascii "active"⟩]) := by
  rintro ⟨coords, hlen, hall, heq⟩
  obtain _ | ⟨c, _ | ⟨c2, rest⟩⟩ := coords <;> simp at hlen
  have hc := (hall c (by simp)).1
  have hs : generateSnapshot
      [⟨1, (.nan, .finite false 0 0, .finite false 0 0), ascii "active"⟩]
      = ascii "COD1GameState|EntityID:1|PosX:" ++
        (78 :: ascii "aN|PosY:0.00|PosZ:0.00|State:active|") := by decide
  have hr : ascii "COD1GameState|" ++ ascii "EntityID:" ++ fmtD 1 ++ ascii "|PosX:"
      = ascii "COD1GameState|EntityID:1|PosX:" := by decide
  rw [hs] at heq
  simp only [List.zipWith_cons_cons, List.zipWith_nil_right, List.flatten_cons,
    List.flatten_nil, List.append_nil] at heq
  have heq2 : ascii "COD1GameState|EntityID:1|PosX:" ++
      (78 :: ascii "aN|PosY:0.00|PosZ:0.00|State:active|") =
      ascii "COD1GameState|EntityID:1|PosX:" ++ (c.1 ++ (ascii "|PosY:" ++ c.2.1
        ++ ascii "|PosZ:" ++ c.2.2 ++ ascii "|State:" ++ ascii "active" ++ ascii "|")) := by
    rw [heq, ← hr]
    simp only [List.append_assoc]
  have heq3 := List.append_cancel_left heq2
  rcases hx : c.1 with _ | ⟨x, t⟩
  · rw [hx] at hc
    exact absurd hc (by decide)
  · rw [hx] at hc heq3
    have hx78 : x = 78 := by
      have := congrArg List.head? heq3
      simpa using this.symm
    subst hx78
    have h78 : isDigit 78 = false := by decide
    simp [isTwoDecimalPlaces, List.takeWhile, h78] at hc

/-! ## Handlers that leave the registry alone -/

theorem handleClient_clients_of_stateless (str : UDPAddr → String) (env : Env)
    (w : World) (clientAddr : UDPAddr) (data : Bytes)
    (h : selectHandler data = .GetChallenge ∨ selectHandler data = .SixteenByteControl ∨
      selectHandler data = .StatusUpdate) :
    (handleClient str env w (.datagram clientAddr data)).clients = w.clients := by
  unfold handleClient
  rcases h with h | h | h <;> simp only [h]
  · unfold handleGetChallenge
    cases generateChallengeResponse env with
    | none => rfl
    | some r =>
      simp only [writeToUDP]
      split <;> rfl
  · unfold handle16BytePacket
    split <;> rfl
  · unfold handleStatusUpdate
    split <;> rfl

/-- C7: a datagram that goes to the GetChallenge, SixteenByteControl or StatusUpdate
handler leaves the registry as it was, whatever the registry, the sender and the
surroundings, also when it is a status update too short to decode. -/
theorem registry_unchanged_by_stateless_handlers (str : UDPAddr → String) (env : Env)
    (w : World) (clientAddr : UDPAddr) (data : Bytes)
    (h : selectHandler data = .GetChallenge ∨ selectHandler data = .SixteenByteControl ∨
      selectHandler data = .StatusUpdate) :
    (handleClient str env w (.datagram clientAddr data)).clients = w.clients :=
  handleClient_clients_of_stateless str env w clientAddr data h

theorem registry_unchanged_by_stateless_handlers_witness :
    selectHandler [1, 2, 3] = .StatusUpdate ∧
    (∃ msg, parseSequenceNumber [1, 2, 3] = .error msg) ∧
    (handleClient hostPort allSendsOk
      { clients := [("127.0.0.1:5000", ⟨peerA, true⟩)], sent := [], halted := false }
      (.datagram peerA [1, 2, 3])).clients = [("127.0.0.1:5000", ⟨peerA, true⟩)] :=
  ⟨by decide, ⟨_, rfl⟩,
    registry_unchanged_by_stateless_handlers hostPort allSendsOk _ peerA [1, 2, 3]
      (Or.inr (Or.inr (by decide)))⟩

/-! ## The messages of a connect -/

theorem sendConfigStrings_sent (env : Env) (k : Nat) (w : World) (clientAddr : UDPAddr)
    (hs : ∀ i, env.sendOk i = true) :
    sendConfigStrings env k w clientAddr =
      { w with sent := w.sent ++
        [(clientAddr, oob ++ ascii "configString " ++ ascii "mapname mp_harbor" ++ ascii "\n"),
         (clientAddr, oob ++ ascii "configString " ++ ascii "gametype dm" ++ ascii "\n")] } := by
  simp [sendConfigStrings, configStrings, writeToUDP, hs]

/-- C5 (as amended): a Connect datagram with every write succeeding sends the client, in
order, the connectResponse message, one configString message per entry (`mapname
mp_harbor`, `gametype dm`) from `handleConnectRequest` itself, and the same two messages
once more from `sendGameState`: five messages, every configString message being the
marker, `configString `, the entry and a newline. -/
theorem connect_sends_five_messages (str : UDPAddr → String) (env : Env) (w : World)
    (clientAddr : UDPAddr) (data : Bytes)
    (hk : selectHandler data = .Connect) (hs : ∀ i, env.sendOk i = true) :
    (handleClient str env w (.datagram clientAddr data)).sent = w.sent ++
      [(clientAddr, [0xFF, 0xFF, 0xFF, 0xFF] ++
          ascii "connectResponse\nsessionid=unique_session_id;map=nom_de_la_carte;status=ok;"),
       (clientAddr, [0xFF, 0xFF, 0xFF, 0xFF] ++ ascii "configString " ++ ascii "mapname mp_harbor"
          ++ ascii "\n"),
       (clientAddr, [0xFF, 0xFF, 0xFF, 0xFF] ++ ascii "configString " ++ ascii "gametype dm"
          ++ ascii "\n"),
       (clientAddr, [0xFF, 0xFF, 0xFF, 0xFF] ++ ascii "configString " ++ ascii "mapname mp_harbor"
          ++ ascii "\n"),
       (clientAddr, [0xFF, 0xFF, 0xFF, 0xFF] ++ ascii "configString " ++ ascii "gametype dm"
          ++ ascii "\n")] := by
  have hresp : oob ++ ascii "connectResponse\n"
      ++ ascii "sessionid=unique_session_id;map=nom_de_la_carte;status=ok;" =
      [0xFF, 0xFF, 0xFF, 0xFF] ++
        ascii "connectResponse\nsessionid=unique_session_id;map=nom_de_la_carte;status=ok;" := by
    decide
  unfold handleClient
  simp only [hk]
  unfold handleConnectRequest sendGameState
  simp only [writeToUDP, hs, if_true, Bool.not_true, Bool.false_eq_true, if_false]
  rw [sendConfigStrings_sent _ _ _ _ hs, sendConfigStrings_sent _ _ _ _ hs, hresp]
  cases Registry.get w.clients (str clientAddr) <;> simp [oob]

set_option maxRecDepth 8192 in
theorem connect_sends_five_messages_witness :
    (handleClient hostPort allSendsOk ⟨[], [], false⟩ (.datagram peerA connect136)).sent.length
      = 5 := by
  rw [connect_sends_five_messages hostPort allSendsOk ⟨[], [], false⟩ peerA connect136
    (by decide) (fun _ => rfl)]
  rfl

set_option maxRecDepth 8192 in
/-- C5 (as stated) fails: a 136-byte connect request with every write succeeding is
answered with five messages, not with the connectResponse and one configString message
per entry. -/
theorem connect_does_not_send_three_messages :
    selectHandler connect136 = .Connect ∧
    (handleClient hostPort allSendsOk ⟨[], [], false⟩ (.datagram peerA connect136)).sent ≠
      [(peerA, [0xFF, 0xFF, 0xFF, 0xFF] ++
          ascii "connectResponse\nsessionid=unique_session_id;map=nom_de_la_carte;status=ok;"),
       (peerA, [0xFF, 0xFF, 0xFF, 0xFF] ++ ascii "configString mapname mp_harbor\n"),
       (peerA, [0xFF, 0xFF, 0xFF, 0xFF] ++ ascii "configString gametype dm\n")] ∧
    (handleClient hostPort allSendsOk ⟨[], [], false⟩ (.datagram peerA connect136)).sent.length
      ≠ 3 := by
  decide

/-! ## The registry under the handlers -/

theorem get_nil (k : String) : Registry.get [] k = none := rfl

theorem get_cons (k0 : String) (c0 : ClientState) (m : Registry) (k : String) :
    Registry.get ((k0, c0) :: m) k = if k0 == k then some c0 else Registry.get m k := by
  unfold Registry.get
  rw [List.find?_cons]
  by_cases h : (k0 == k) = true
  · simp [h]
  · simp [h]

theorem get_append_of_some {m : Registry} {k : String} {c : ClientState} (m2 : Registry)
    (h : m.get k = some c) : Registry.get (m ++ m2) k = some c := by
  induction m with
  | nil => simp [get_nil] at h
  | cons e m ih =>
    obtain ⟨k0, c0⟩ := e
    rw [List.cons_append, get_cons]
    rw [get_cons] at h
    split
    · rename_i hk
      simpa [hk] using h
    · rename_i hk
      simp only [hk] at h
      exact ih h

theorem get_append_of_none {m : Registry} {k : String} (m2 : Registry)
    (h : m.get k = none) : Registry.get (m ++ m2) k = Registry.get m2 k := by
  induction m with
  | nil => rfl
  | cons e m ih =>
    obtain ⟨k0, c0⟩ := e
    rw [List.cons_append, get_cons]
    rw [get_cons] at h
    split
    · rename_i hk
      simp [hk] at h
    · rename_i hk
      simp only [hk] at h
      exact ih h

theorem put_of_none {m : Registry} {k : String} (c : ClientState) (h : m.get k = none) :
    m.put k c = m ++ [(k, c)] := by
  unfold Registry.put
  simp [h]

theorem get_markReady (m : Registry) (k k' : String) :
    Registry.get (m.markReady k) k' =
      (m.get k').map (fun c => if k' == k then { c with readyForSnapshots := true } else c) := by
  induction m with
  | nil => rfl
  | cons e m ih =>
    obtain ⟨k0, c0⟩ := e
    have hcons : Registry.markReady ((k0, c0) :: m) k =
        (if k0 == k then (k0, { c0 with readyForSnapshots := true }) else (k0, c0))
          :: Registry.markReady m k := rfl
    rw [hcons, get_cons k0 c0 m k']
    by_cases h1 : (k0 == k) = true
    · simp only [h1, if_true]
      rw [get_cons]
      by_cases h2 : (k0 == k') = true
      · have e1 : k0 = k := by simpa using h1
        have e2 : k0 = k' := by simpa using h2
        subst e1 e2
        simp
      · have h2' : (k0 == k') = false := by simpa using h2
        simp only [h2', Bool.false_eq_true, if_false]
        exact ih
    · have h1' : (k0 == k) = false := by simpa using h1
      simp only [h1', Bool.false_eq_true, if_false]
      rw [get_cons]
      by_cases h2 : (k0 == k') = true
      · have e2 : k0 = k' := by simpa using h2
        subst e2
        simp [h1']
      · have h2' : (k0 == k') = false := by simpa using h2
        simp only [h2', Bool.false_eq_true, if_false]
        exact ih

/-- The registry holds a session under `k` that is ready for snapshots. -/
theorem ready_markReady {m : Registry} {k' : String} (k : String)
    (h : ∃ c, m.get k' = some c ∧ c.readyForSnapshots = true) :
    ∃ c, Registry.get (m.markReady k) k' = some c ∧ c.readyForSnapshots = true := by
  obtain ⟨c, hc, hr⟩ := h
  rw [get_markReady, hc]
  refine ⟨_, rfl, ?_⟩
  split
  · rfl
  · exact hr

theorem ready_markReady_self {m : Registry} {k : String} {c : ClientState}
    (h : m.get k = some c) :
    ∃ c', Registry.get (m.markReady k) k = some c' ∧ c'.readyForSnapshots = true := by
  rw [get_markReady, h]
  exact ⟨_, rfl, by simp⟩

theorem sendConfigStrings_clients (env : Env) (k : Nat) (w : World) (clientAddr : UDPAddr) :
    (sendConfigStrings env k w clientAddr).clients = w.clients := by
  simp only [sendConfigStrings, configStrings, List.foldl_cons, List.foldl_nil, writeToUDP]
  split <;> split <;> rfl

theorem handleConnectRequest_clients (str : UDPAddr → String) (env : Env) (w : World)
    (clientAddr : UDPAddr) (data : Bytes) :
    (handleConnectRequest str env w clientAddr data).clients =
      if env.sendOk 0 = true then
        Registry.markReady
          (match w.clients.get (str clientAddr) with
           | some _ => w.clients
           | none => w.clients.put (str clientAddr)
              { addr := clientAddr, readyForSnapshots := false })
          (str clientAddr)
      else w.clients := by
  unfold handleConnectRequest sendGameState
  by_cases h : env.sendOk 0 = true
  · simp only [writeToUDP, h, if_true, Bool.not_true, Bool.false_eq_true, if_false,
      sendConfigStrings_clients]
    cases w.clients.get (str clientAddr) <;> rfl
  · simp [writeToUDP, h]

theorem handleAck_clients (str : UDPAddr → String) (env : Env) (w : World)
    (clientAddr : UDPAddr) :
    (handleAck str env w clientAddr).clients =
      if env.sendOk 0 = true then
        (match w.clients.get (str clientAddr) with
         | some _ => w.clients.markReady (str clientAddr)
         | none => w.clients.put (str clientAddr)
            { addr := clientAddr, readyForSnapshots := true })
      else w.clients := by
  unfold handleAck
  by_cases h : env.sendOk 0 = true
  · simp only [writeToUDP, h, if_true, Bool.not_true, Bool.false_eq_true, if_false]
    cases w.clients.get (str clientAddr) <;> rfl
  · simp [writeToUDP, h]

theorem get_put_self_of_none {m : Registry} {k : String} (c : ClientState)
    (h : m.get k = none) : Registry.get (m.put k c) k = some c := by
  rw [put_of_none c h, get_append_of_none _ h, get_cons]
  simp [get_nil]

theorem ready_put_of_none {m : Registry} {k k' : String} (c : ClientState)
    (hn : m.get k = none) (h : ∃ c', m.get k' = some c' ∧ c'.readyForSnapshots = true) :
    ∃ c', Registry.get (m.put k c) k' = some c' ∧ c'.readyForSnapshots = true := by
  obtain ⟨c', hc, hr⟩ := h
  rw [put_of_none c hn]
  exact ⟨c', get_append_of_some _ hc, hr⟩

theorem handleClient_clients_cases (str : UDPAddr → String) (env : Env) (w : World)
    (clientAddr : UDPAddr) (data : Bytes) :
    (selectHandler data = .Connect ∧
      (handleClient str env w (.datagram clientAddr data)).clients =
        (handleConnectRequest str env w clientAddr data).clients) ∨
    (selectHandler data = .Ack ∧
      (handleClient str env w (.datagram clientAddr data)).clients =
        (handleAck str env w clientAddr).clients) ∨
    (handleClient str env w (.datagram clientAddr data)).clients = w.clients := by
  cases h : selectHandler data with
  | Connect => left; exact ⟨rfl, by simp only [handleClient, h]⟩
  | Ack => right; left; exact ⟨rfl, by simp only [handleClient, h]⟩
  | GetChallenge =>
    right; right
    exact handleClient_clients_of_stateless str env w clientAddr data (Or.inl h)
  | SixteenByteControl =>
    right; right
    exact handleClient_clients_of_stateless str env w clientAddr data (Or.inr (Or.inl h))
  | StatusUpdate =>
    right; right
    exact handleClient_clients_of_stateless str env w clientAddr data (Or.inr (Or.inr h))

/-- A handled connect whose response was sent leaves the sender ready. -/
theorem connect_makes_ready (str : UDPAddr → String) (env : Env) (w : World)
    (clientAddr : UDPAddr) (data : Bytes) (hs : env.sendOk 0 = true) :
    ∃ c, Registry.get (handleConnectRequest str env w clientAddr data).clients (str clientAddr)
      = some c ∧ c.readyForSnapshots = true := by
  rw [handleConnectRequest_clients, if_pos hs]
  cases h : w.clients.get (str clientAddr) with
  | some c => exact ready_markReady_self h
  | none => exact ready_markReady_self (get_put_self_of_none _ h)

/-- A handled ack whose game state was sent leaves the sender ready. -/
theorem ack_makes_ready (str : UDPAddr → String) (env : Env) (w : World)
    (clientAddr : UDPAddr) (hs : env.sendOk 0 = true) :
    ∃ c, Registry.get (handleAck str env w clientAddr).clients (str clientAddr)
      = some c ∧ c.readyForSnapshots = true := by
  rw [handleAck_clients, if_pos hs]
  cases h : w.clients.get (str clientAddr) with
  | some c => exact ready_markReady_self h
  | none => exact ⟨_, get_put_self_of_none _ h, rfl⟩

theorem connect_keeps_ready (str : UDPAddr → String) (env : Env) (w : World)
    (clientAddr : UDPAddr) (data : Bytes) (k : String)
    (h : ∃ c, w.clients.get k = some c ∧ c.readyForSnapshots = true) :
    ∃ c, Registry.get (handleConnectRequest str env w clientAddr data).clients k
      = some c ∧ c.readyForSnapshots = true := by
  rw [handleConnectRequest_clients]
  split
  · cases hg : w.clients.get (str clientAddr) with
    | some c => exact ready_markReady _ h
    | none => exact ready_markReady _ (ready_put_of_none _ hg h)
  · exact h

theorem ack_keeps_ready (str : UDPAddr → String) (env : Env) (w : World)
    (clientAddr : UDPAddr) (k : String)
    (h : ∃ c, w.clients.get k = some c ∧ c.readyForSnapshots = true) :
    ∃ c, Registry.get (handleAck str env w clientAddr).clients k
      = some c ∧ c.readyForSnapshots = true := by
  rw [handleAck_clients]
  split
  · cases hg : w.clients.get (str clientAddr) with
    | some c => exact ready_markReady _ h
    | none => exact ready_put_of_none _ hg h
  · exact h

theorem handleClient_keeps_ready (str : UDPAddr → String) (env : Env) (w : World)
    (r : ReadResult) (k : String)
    (h : ∃ c, w.clients.get k = some c ∧ c.readyForSnapshots = true) :
    ∃ c, Registry.get (handleClient str env w r).clients k = some c ∧
      c.readyForSnapshots = true := by
  cases r with
  | failed => exact h
  | datagram clientAddr data =>
    rcases handleClient_clients_cases str env w clientAddr data with ⟨_, e⟩ | ⟨_, e⟩ | e
    · rw [e]; exact connect_keeps_ready str env w clientAddr data k h
    · rw [e]; exact ack_keeps_ready str env w clientAddr k h
    · rw [e]; exact h

theorem serve_keeps_ready (str : UDPAddr → String) (k : String)
    (events : List (Env × ReadResult)) : ∀ w : World,
    (∃ c, w.clients.get k = some c ∧ c.readyForSnapshots = true) →
    ∃ c, Registry.get (serve str w events).clients k = some c ∧
      c.readyForSnapshots = true := by
  induction events with
  | nil => intro w h; exact h
  | cons ev rest ih =>
    intro w h
    obtain ⟨env, r⟩ := ev
    unfold serve
    split
    · exact h
    · exact ih _ (handleClient_keeps_ready str env w r k h)

/-- C4: once an Ack or a Connect datagram from an address has been handled with its
response write succeeding, the registry holds a session for that address with
`readyForSnapshots = true`, and it still does after every later read of the receive loop,
whatever the starting registry and whoever sends the later datagrams. -/
theorem ready_after_handshake_forever (str : UDPAddr → String) (env : Env) (w : World)
    (clientAddr : UDPAddr) (data : Bytes) (later : List (Env × ReadResult))
    (hk : selectHandler data = .Ack ∨ selectHandler data = .Connect)
    (hs : env.sendOk 0 = true) :
    ∃ c, Registry.get
        (serve str (handleClient str env w (.datagram clientAddr data)) later).clients
        (str clientAddr) = some c ∧
      c.readyForSnapshots = true := by
  apply serve_keeps_ready
  rcases hk with hk | hk
  · simp only [handleClient, hk]
    exact ack_makes_ready str env w clientAddr hs
  · simp only [handleClient, hk]
    exact connect_makes_ready str env w clientAddr data hs

theorem ready_after_handshake_forever_witness :
    ∃ c, Registry.get
        (serve hostPort
          (handleClient hostPort allSendsOk ⟨[], [], false⟩
            (.datagram peerA (oob ++ ascii "ack")))
          [(noSendOk, .datagram peerA (oob ++ ascii "connect")),
           (allSendsOk, .datagram peerA [1, 2, 3])]).clients
        (hostPort peerA) = some c ∧
      c.readyForSnapshots = true :=
  ready_after_handshake_forever hostPort allSendsOk ⟨[], [], false⟩ peerA (oob ++ ascii "ack")
    [(noSendOk, .datagram peerA (oob ++ ascii "connect")),
     (allSendsOk, .datagram peerA [1, 2, 3])]
    (Or.inl (by decide)) rfl

/-! ## Write outcomes and the registry -/

/-- C9 (as amended): for an Ack or a Connect datagram the registry afterwards depends on
the surroundings only through the outcome of the first write, the response: when it
succeeds the sender's session exists afterwards with `readyForSnapshots = true` and the
registry is the same whatever the later writes do; when it fails the registry is left as
it was. -/
theorem registry_follows_first_write (str : UDPAddr → String) (env env' : Env) (w : World)
    (clientAddr : UDPAddr) (data : Bytes)
    (hk : selectHandler data = .Ack ∨ selectHandler data = .Connect) :
    (env.sendOk 0 = true → env'.sendOk 0 = true →
      (handleClient str env w (.datagram clientAddr data)).clients =
        (handleClient str env' w (.datagram clientAddr data)).clients ∧
      ∃ c, Registry.get (handleClient str env w (.datagram clientAddr data)).clients
          (str clientAddr) = some c ∧ c.readyForSnapshots = true) ∧
    (env.sendOk 0 = false →
      (handleClient str env w (.datagram clientAddr data)).clients = w.clients) := by
  rcases hk with hk | hk
  · simp only [handleClient, hk]
    refine ⟨fun h h' => ⟨?_, ack_makes_ready str env w clientAddr h⟩, fun h => ?_⟩
    · rw [handleAck_clients, handleAck_clients, if_pos h, if_pos h']
    · rw [handleAck_clients, if_neg (by simp [h])]
  · simp only [handleClient, hk]
    refine ⟨fun h h' => ⟨?_, connect_makes_ready str env w clientAddr data h⟩, fun h => ?_⟩
    · rw [handleConnectRequest_clients, handleConnectRequest_clients, if_pos h, if_pos h']
    · rw [handleConnectRequest_clients, if_neg (by simp [h])]

theorem registry_follows_first_write_witness :
    (handleClient hostPort noSendOk
      { clients := [("10.0.0.9:7", ⟨⟨[10, 0, 0, 9], 7, ""⟩, true⟩)], sent := [], halted := false }
      (.datagram peerA (oob ++ ascii "ack"))).clients =
        [("10.0.0.9:7", ⟨⟨[10, 0, 0, 9], 7, ""⟩, true⟩)] :=
  (registry_follows_first_write hostPort noSendOk noSendOk _ peerA (oob ++ ascii "ack")
    (Or.inl (by decide))).2 rfl

set_option maxRecDepth 8192 in
/-- C9 (as stated) fails: from the empty registry an Ack, and likewise a Connect, leaves a
ready session for the sender when its writes succeed and no session at all when they
fail. -/
theorem registry_differs_when_writes_fail :
    (handleClient hostPort allSendsOk ⟨[], [], false⟩
        (.datagram peerA (oob ++ ascii "ack"))).clients ≠
      (handleClient hostPort noSendOk ⟨[], [], false⟩
        (.datagram peerA (oob ++ ascii "ack"))).clients ∧
    Registry.get (handleClient hostPort noSendOk ⟨[], [], false⟩
        (.datagram peerA (oob ++ ascii "ack"))).clients (hostPort peerA) = none ∧
    selectHandler connect136 = .Connect ∧
    (handleClient hostPort allSendsOk ⟨[], [], false⟩ (.datagram peerA connect136)).clients ≠
      (handleClient hostPort noSendOk ⟨[], [], false⟩ (.datagram peerA connect136)).clients ∧
    Registry.get (handleClient hostPort noSendOk ⟨[], [], false⟩
        (.datagram peerA connect136)).clients (hostPort peerA) = none := by
  decide

/-! ## The invariant of the registry -/

theorem inv_markReady (str : UDPAddr → String) {m : Registry} (k : String)
    (h : ∀ e ∈ m, e.2.readyForSnapshots = true ∧ e.1 = str e.2.addr) :
    ∀ e ∈ m.markReady k, e.2.readyForSnapshots = true ∧ e.1 = str e.2.addr := by
  intro e he
  obtain ⟨e0, he0, rfl⟩ := List.mem_map.1 he
  split
  · exact ⟨rfl, (h e0 he0).2⟩
  · exact h e0 he0

theorem inv_put_of_none (str : UDPAddr → String) {m : Registry} {k : String}
    (c : ClientState) (hn : m.get k = none) (hc : c.readyForSnapshots = true)
    (hk : k = str c.addr)
    (h : ∀ e ∈ m, e.2.readyForSnapshots = true ∧ e.1 = str e.2.addr) :
    ∀ e ∈ m.put k c, e.2.readyForSnapshots = true ∧ e.1 = str e.2.addr := by
  rw [put_of_none c hn]
  intro e he
  rcases List.mem_append.1 he with he | he
  · exact h e he
  · have : e = (k, c) := by simpa using he
    subst this
    exact ⟨hc, hk⟩

theorem inv_connect_new (str : UDPAddr → String) {m : Registry} (clientAddr : UDPAddr)
    (hn : m.get (str clientAddr) = none)
    (h : ∀ e ∈ m, e.2.readyForSnapshots = true ∧ e.1 = str e.2.addr) :
    ∀ e ∈ Registry.markReady
        (m.put (str clientAddr) { addr := clientAddr, readyForSnapshots := false })
        (str clientAddr),
      e.2.readyForSnapshots = true ∧ e.1 = str e.2.addr := by
  rw [put_of_none _ hn]
  intro e he
  obtain ⟨e0, he0, rfl⟩ := List.mem_map.1 he
  rcases List.mem_append.1 he0 with he0 | he0
  · split
    · exact ⟨rfl, (h e0 he0).2⟩
    · exact h e0 he0
  · have : e0 = (str clientAddr, { addr := clientAddr, readyForSnapshots := false }) := by
      simpa using he0
    subst this
    simp

theorem handleClient_inv (str : UDPAddr → String) (env : Env) (w : World) (r : ReadResult)
    (h : ∀ e ∈ w.clients, e.2.readyForSnapshots = true ∧ e.1 = str e.2.addr) :
    ∀ e ∈ (handleClient str env w r).clients,
      e.2.readyForSnapshots = true ∧ e.1 = str e.2.addr := by
  cases r with
  | failed => exact h
  | datagram clientAddr data =>
    rcases handleClient_clients_cases str env w clientAddr data with ⟨_, e⟩ | ⟨_, e⟩ | e
    · rw [e, handleConnectRequest_clients]
      split
      · cases hg : w.clients.get (str clientAddr) with
        | some c => exact inv_markReady str _ h
        | none => exact inv_connect_new str clientAddr hg h
      · exact h
    · rw [e, handleAck_clients]
      split
      · cases hg : w.clients.get (str clientAddr) with
        | some c => exact inv_markReady str _ h
        | none => exact inv_put_of_none str _ hg rfl rfl h
      · exact h
    · rw [e]; exact h

theorem snapshotRound_fold_clients (env : Env) (entities : List Entity)
    (targets : List UDPAddr) : ∀ acc : World × Nat,
    (targets.foldl
      (fun (acc : World × Nat) clientAddr =>
        (sendSnapshotsToClient env acc.2 acc.1 clientAddr entities, acc.2 + 1)) acc).1.clients
      = acc.1.clients := by
  induction targets with
  | nil => intro acc; rfl
  | cons a rest ih =>
    intro acc
    rw [List.foldl_cons, ih]
    simp only [sendSnapshotsToClient, writeToUDP]
    split <;> rfl

theorem snapshotRound_clients (env : Env) (w : World) (targets : List UDPAddr)
    (entities : List Entity) : (snapshotRound env w targets entities).clients = w.clients :=
  snapshotRound_fold_clients env entities targets (w, 0)

theorem step_inv (str : UDPAddr → String) (s : Server) (ev : Event)
    (h : ∀ e ∈ s.world.clients, e.2.readyForSnapshots = true ∧ e.1 = str e.2.addr) :
    ∀ e ∈ (Server.step str s ev).world.clients,
      e.2.readyForSnapshots = true ∧ e.1 = str e.2.addr := by
  cases ev with
  | recv env r =>
    simp only [Server.step]
    by_cases hh : s.world.halted = true
    · rw [if_pos hh]; exact h
    · rw [if_neg hh]; exact handleClient_inv str env s.world r h
  | tick env =>
    simp only [Server.step]
    by_cases hh : s.world.halted = true
    · rw [if_pos hh]; exact h
    · rw [if_neg hh]
      simp only [snapshotRound_clients]
      exact h

theorem run_inv (str : UDPAddr → String) (events : List Event) : ∀ s : Server,
    (∀ e ∈ s.world.clients, e.2.readyForSnapshots = true ∧ e.1 = str e.2.addr) →
    ∀ e ∈ (events.foldl (Server.step str) s).world.clients,
      e.2.readyForSnapshots = true ∧ e.1 = str e.2.addr := by
  induction events with
  | nil => intro s h; exact h
  | cons ev rest ih => intro s h; exact ih _ (step_inv str s ev h)

/-- C10: from the empty registry, after any finite run of reads of the receive loop
(any payloads, senders and write outcomes) and snapshot rounds, every session of the
registry has `readyForSnapshots = true` and sits under the key that is the string form of
its own address: a session with the flag false is never left behind by a handler. -/
theorem registry_sessions_ready_and_keyed (str : UDPAddr → String) (events : List Event) :
    ∀ e ∈ (mainRun str events).world.clients,
      e.2.readyForSnapshots = true ∧ e.1 = str e.2.addr := by
  apply run_inv
  intro e he
  simp at he

theorem registry_sessions_ready_and_keyed_witness :
    ("127.0.0.1:5000", (⟨peerA, true⟩ : ClientState)) ∈
        (mainRun hostPort [.recv allSendsOk (.datagram peerA (oob ++ ascii "ack"))]).world.clients ∧
      ((⟨peerA, true⟩ : ClientState).readyForSnapshots = true ∧
        "127.0.0.1:5000" = hostPort peerA) :=
  ⟨by decide,
    registry_sessions_ready_and_keyed hostPort
      [.recv allSendsOk (.datagram peerA (oob ++ ascii "ack"))]
      ("127.0.0.1:5000", ⟨peerA, true⟩) (by decide)⟩

/-! ## The recipients of a snapshot round -/

theorem step_targets (str : UDPAddr → String) (s : Server) (ev : Event) :
    (Server.step str s ev).targets = s.targets := by
  cases ev <;> simp only [Server.step] <;> split <;> rfl

theorem run_targets (str : UDPAddr → String) (events : List Event) : ∀ s : Server,
    (events.foldl (Server.step str) s).targets = s.targets := by
  induction events with
  | nil => intro s; rfl
  | cons ev rest ih => intro s; rw [List.foldl_cons, ih, step_targets]

/-- C3 on the code: the list of recipients is built once, when the goroutine starts, from
a registry that is still empty, and no later datagram changes it. After an Ack from
`127.0.0.1:5000` has been answered, that address is the one ready session of the registry,
yet the next snapshot round writes to nobody: the only datagram the server has sent is
the game state. -/
theorem snapshot_recipients_fixed_at_start :
    (∀ (str : UDPAddr → String) (events : List Event), (mainRun str events).targets = []) ∧
    (mainRun hostPort [.recv allSendsOk (.datagram peerA (oob ++ ascii "ack")),
        .tick allSendsOk]).world.halted = false ∧
    readyAddresses (mainRun hostPort [.recv allSendsOk (.datagram peerA (oob ++ ascii "ack")),
        .tick allSendsOk]).world.clients = [peerA] ∧
    (mainRun hostPort [.recv allSendsOk (.datagram peerA (oob ++ ascii "ack")),
        .tick allSendsOk]).world.sent =
      [(peerA, oob ++ ascii "gamestate map=mp_harbor;gametype=dm;")] := by
  refine ⟨fun str events => ?_, by decide, by decide, by decide⟩
  unfold mainRun
  rw [run_targets]
  rfl

end Cod1
